import Mathlib

/-!
Verification of the RVCI Arduino firmware (`src/firmware.ino`).

The firmware samples `NUM_SLIDERS = 5` analog channels, unconditionally sends a
`|`-delimited frame line each `loop()` iteration, then polls two switches and
prints a fixed literal line on each observed rising edge, updating the stored
previous state and sleeping for the 50 ms debounce delay.

The embedding below translates the firmware's globals, its `loop()` body and
its helper functions into pure Lean functions.  All hardware reads performed
during one `loop()` iteration are gathered in a `CycleInput`; the serial
output of a run is the list of lines written, in order.
-/

namespace RVCI

/-- Logical level of a digital pin (the Arduino `LOW`/`HIGH` constants). -/
inductive Level where
  | LOW
  | HIGH
deriving DecidableEq

/-- `NUM_SLIDERS` (firmware.ino line 16): the fixed number of analog channels. -/
def NUM_SLIDERS : Nat := 5

/-- Modelled from the spec: the board's serial driver layer is an external
collaborator ("write line to serial transport"); `Serial.println s` writes the
text `s` followed by the line terminator. -/
def serialPrintln (s : String) : String := s ++ "\n"

/-- The values the hardware returns during one `loop()` iteration: the five
`analogRead` results for `analogInputs[0..4]` in index order (lines 62-66) and
the two `digitalRead` results for `switchPin2` / `switchPin3` (lines 40-41). -/
structure CycleInput where
  a0 : Int
  a1 : Int
  a2 : Int
  a3 : Int
  a4 : Int
  sw2 : Level
  sw3 : Level
deriving DecidableEq

/-- The firmware's mutable globals (lines 21-23): the channel value array and
the two stored previous switch states. -/
structure FirmwareState where
  analogSliderValues : List Int
  prevSwitchState2 : Level
  prevSwitchState3 : Level
deriving DecidableEq

/-- The globals at startup: `analogSliderValues` is a zero-initialised C array
of `NUM_SLIDERS` ints, and `prevSwitchState2 = prevSwitchState3 = LOW`
(lines 21-23). -/
def initialState : FirmwareState :=
  ⟨List.replicate NUM_SLIDERS 0, Level.LOW, Level.LOW⟩

/-- `updateSliderValues` (lines 62-66): overwrite the channel array with this
cycle's `analogRead` results, in fixed index order. -/
def updateSliderValues (ins : CycleInput) : List Int :=
  [ins.a0, ins.a1, ins.a2, ins.a3, ins.a4]

/-- The `builtString` accumulation inside `sendSliderValues` (lines 69-77):
for each index append the decimal representation of `analogSliderValues[i]`,
and append the delimiter `"|"` exactly when `i < NUM_SLIDERS - 1`, i.e. when
further values follow. -/
def builtString : List Int → String
  | [] => ""
  | [v] => toString v
  | v :: w :: vs => toString v ++ "|" ++ builtString (w :: vs)

/-- `sendSliderValues` (lines 68-80): build the delimited value string and
print it as one line. -/
def sendSliderValues (vs : List Int) : String :=
  serialPrintln (builtString vs)

/-- The literal line printed on a rising edge of switch slot 2 (line 45). -/
def switch2EventLine : String := serialPrintln "WORKS 2"

/-- The literal line printed on a rising edge of switch slot 3 (line 54). -/
def switch3EventLine : String := serialPrintln "WORKS 1"

/-- One per-switch poll block of `loop()` (lines 43-49 for slot 2, lines 52-58
for slot 3): given the stored previous state and the raw level read, return
the new stored state and whether the event line was printed.  The event fires
iff the raw level differs from the stored state and the new level is `HIGH`;
on any difference the stored state becomes the raw level (and the firmware
then sleeps for the 50 ms debounce delay, during which no reads happen). -/
def pollSwitch (prevState raw : Level) : Level × Bool :=
  if raw ≠ prevState then
    (raw, raw == Level.HIGH)
  else
    (prevState, false)

/-- One iteration of `loop()` (lines 35-60): sample all channels, send the
frame line unconditionally, then poll switch 2 and switch 3 in that order,
printing their event lines on rising edges.  Returns the new globals and the
lines written to serial, in order. -/
def loopCycle (st : FirmwareState) (ins : CycleInput) : FirmwareState × List String :=
  let sliders := updateSliderValues ins
  let frame := sendSliderValues sliders
  let p2 := pollSwitch st.prevSwitchState2 ins.sw2
  let p3 := pollSwitch st.prevSwitchState3 ins.sw3
  (⟨sliders, p2.1, p3.1⟩,
    frame :: ((if p2.2 then [switch2EventLine] else []) ++
              (if p3.2 then [switch3EventLine] else [])))

/-- Run `loop()` once per element of the input list, concatenating the serial
output of every cycle. -/
def runFirmware : FirmwareState → List CycleInput → List String
  | _, [] => []
  | st, ins :: rest =>
      (loopCycle st ins).2 ++ runFirmware (loopCycle st ins).1 rest

/-- The serial byte stream of a firmware run from power-on, as the list of
lines written. -/
def firmwareOutput (inss : List CycleInput) : List String :=
  runFirmware initialState inss

/-- Repeated polls of one switch debouncer (its per-cycle block of `loop()`),
counting how many Events (printed lines) it emits. -/
def runDebouncer : Level → List Level → Nat
  | _, [] => 0
  | prevState, raw :: rest =>
      (if (pollSwitch prevState raw).2 then 1 else 0) +
        runDebouncer (pollSwitch prevState raw).1 rest

/-- The number of LOW→HIGH adjacencies (rising edges) in a level sequence. -/
def countLH : List Level → Nat
  | a :: b :: rest =>
      (if a = Level.LOW ∧ b = Level.HIGH then 1 else 0) + countLH (b :: rest)
  | _ => 0

/-- A line contains the frame delimiter character. -/
def hasDelim (s : String) : Bool := s.data.any (fun c => c == '|')

/-! Characters of decimal representations: every character of `toString (v : Int)`
is a digit or the minus sign, hence never the delimiter `'|'`, and the
representation is never empty. -/

lemma digitChar_isDigit {n : Nat} (h : n < 10) : (Nat.digitChar n).isDigit = true := by
  interval_cases n <;> decide

lemma toDigitsCore_isDigit :
    ∀ (fuel n : Nat) (ds : List Char), (∀ c ∈ ds, c.isDigit = true) →
      ∀ c ∈ Nat.toDigitsCore 10 fuel n ds, c.isDigit = true := by
  intro fuel
  induction fuel with
  | zero =>
      intro n ds h c hc
      exact h c hc
  | succ fuel ih =>
      intro n ds h c hc
      rw [Nat.toDigitsCore] at hc
      by_cases h10 : n / 10 = 0
      · rw [if_pos h10] at hc
        rcases List.mem_cons.mp hc with rfl | hmem
        · exact digitChar_isDigit (Nat.mod_lt _ (by decide))
        · exact h c hmem
      · rw [if_neg h10] at hc
        refine ih (n / 10) (Nat.digitChar (n % 10) :: ds) ?_ c hc
        intro c hc
        rcases List.mem_cons.mp hc with rfl | hmem
        · exact digitChar_isDigit (Nat.mod_lt _ (by decide))
        · exact h c hmem

lemma toDigitsCore_ne_nil :
    ∀ (fuel n : Nat) (ds : List Char), ds ≠ [] → Nat.toDigitsCore 10 fuel n ds ≠ [] := by
  intro fuel
  induction fuel with
  | zero =>
      intro n ds h
      exact h
  | succ fuel ih =>
      intro n ds h
      rw [Nat.toDigitsCore]
      by_cases h10 : n / 10 = 0
      · rw [if_pos h10]
        exact List.cons_ne_nil _ _
      · rw [if_neg h10]
        exact ih _ _ (List.cons_ne_nil _ _)

lemma repr_data_ne_nil (n : Nat) : (Nat.repr n).data ≠ [] := by
  show Nat.toDigitsCore 10 (n + 1) n [] ≠ []
  rw [Nat.toDigitsCore]
  by_cases h10 : n / 10 = 0
  · rw [if_pos h10]
    exact List.cons_ne_nil _ _
  · rw [if_neg h10]
    exact toDigitsCore_ne_nil _ _ _ (List.cons_ne_nil _ _)

lemma repr_isDigit (n : Nat) : ∀ c ∈ (Nat.repr n).data, c.isDigit = true := by
  intro c hc
  have h : (Nat.repr n).data = Nat.toDigitsCore 10 (n + 1) n [] := rfl
  rw [h] at hc
  refine toDigitsCore_isDigit (n + 1) n [] ?_ c hc
  intro c hc
  cases hc

lemma toString_intOfNat (m : Nat) : toString (Int.ofNat m) = Nat.repr m := rfl

lemma toString_intNegSucc (m : Nat) :
    toString (Int.negSucc m) = "-" ++ Nat.repr (m + 1) := rfl

lemma toString_int_chars (v : Int) :
    ∀ c ∈ (toString v).data, c.isDigit = true ∨ c = '-' := by
  intro c hc
  cases v with
  | ofNat m =>
      rw [toString_intOfNat] at hc
      exact Or.inl (repr_isDigit m c hc)
  | negSucc m =>
      rw [toString_intNegSucc, String.data_append] at hc
      rcases List.mem_append.mp hc with h | h
      · right
        have hd : ("-" : String).data = ['-'] := rfl
        rw [hd] at h
        simpa using h
      · exact Or.inl (repr_isDigit (m + 1) c h)

lemma toString_int_ne_delim (v : Int) : ∀ c ∈ (toString v).data, c ≠ '|' := by
  intro c hc he
  subst he
  rcases toString_int_chars v _ hc with h | h
  · exact absurd h (by decide)
  · exact absurd h (by decide)

lemma toString_int_count (v : Int) : (toString v).data.count '|' = 0 :=
  List.count_eq_zero.mpr (fun h => toString_int_ne_delim v '|' h rfl)

lemma toString_int_ne_nil (v : Int) : (toString v).data ≠ [] := by
  cases v with
  | ofNat m =>
      rw [toString_intOfNat]
      exact repr_data_ne_nil m
  | negSucc m =>
      rw [toString_intNegSucc, String.data_append]
      intro h
      rcases List.append_eq_nil.mp h with ⟨h1, h2⟩
      exact absurd h1 (by decide)

/-! Structure of the encoded frame body. -/

lemma builtString_cons_cons (v w : Int) (vs : List Int) :
    builtString (v :: w :: vs) = toString v ++ "|" ++ builtString (w :: vs) := rfl

lemma builtString_ne_nil (v : Int) (vs : List Int) :
    (builtString (v :: vs)).data ≠ [] := by
  cases vs with
  | nil =>
      exact toString_int_ne_nil v
  | cons w vs =>
      rw [builtString_cons_cons, String.data_append, String.data_append]
      intro h
      rcases List.append_eq_nil.mp h with ⟨h1, h2⟩
      rcases List.append_eq_nil.mp h1 with ⟨h3, h4⟩
      exact toString_int_ne_nil v h3

lemma builtString_count (v : Int) (vs : List Int) :
    (builtString (v :: vs)).data.count '|' = vs.length := by
  induction vs generalizing v with
  | nil =>
      exact toString_int_count v
  | cons w vs ih =>
      rw [builtString_cons_cons, String.data_append, String.data_append,
        List.count_append, List.count_append, toString_int_count, ih w]
      have hd : (("|" : String).data).count '|' = 1 := by decide
      rw [hd]
      simp [Nat.add_comm]

lemma builtString_head (v : Int) (vs : List Int) :
    (builtString (v :: vs)).data.head? ≠ some '|' := by
  obtain ⟨c0, cs, hc⟩ := List.exists_cons_of_ne_nil (toString_int_ne_nil v)
  have hc0 : c0 ≠ '|' :=
    toString_int_ne_delim v c0 (by rw [hc]; exact List.mem_cons_self _ _)
  cases vs with
  | nil =>
      show (toString v).data.head? ≠ some '|'
      rw [hc]
      simpa using hc0
  | cons w vs =>
      rw [builtString_cons_cons, String.data_append, String.data_append, hc]
      simpa using hc0

lemma builtString_getLast (v : Int) (vs : List Int) :
    (builtString (v :: vs)).data.getLast? ≠ some '|' := by
  induction vs generalizing v with
  | nil =>
      show (toString v).data.getLast? ≠ some '|'
      intro h
      exact toString_int_ne_delim v '|' (List.mem_of_mem_getLast? (Option.mem_def.mpr h)) rfl
  | cons w vs ih =>
      rw [builtString_cons_cons, String.data_append, String.data_append,
        List.getLast?_append]
      obtain ⟨b, hb⟩ : ∃ b, (builtString (w :: vs)).data.getLast? = some b :=
        ⟨_, List.getLast?_eq_getLast _ (builtString_ne_nil w vs)⟩
      rw [hb]
      intro h
      apply ih w
      rw [hb]
      simpa using h

/-! The switch poll block: each poll leaves the stored state equal to the raw
level just read, and fires exactly on the LOW→HIGH adjacencies of the level
sequence extended with the stored initial state. -/

lemma pollSwitch_fst (s r : Level) : (pollSwitch s r).1 = r := by
  cases s <;> cases r <;> rfl

lemma pollSwitch_event (s r : Level) :
    (if (pollSwitch s r).2 then 1 else 0) =
      (if s = Level.LOW ∧ r = Level.HIGH then 1 else 0) := by
  cases s <;> cases r <;> rfl

lemma countLH_cons_cons (a b : Level) (l : List Level) :
    countLH (a :: b :: l) =
      (if a = Level.LOW ∧ b = Level.HIGH then 1 else 0) + countLH (b :: l) := rfl

lemma runDebouncer_eq_countLH (s : Level) (ls : List Level) :
    runDebouncer s ls = countLH (s :: ls) := by
  induction ls generalizing s with
  | nil => cases s <;> rfl
  | cons r ls ih =>
      have h : runDebouncer s (r :: ls) =
          (if (pollSwitch s r).2 then 1 else 0) +
            runDebouncer (pollSwitch s r).1 ls := rfl
      rw [h, pollSwitch_fst, pollSwitch_event, ih r, countLH_cons_cons]

lemma countLH_cons_replicate (k : Nat) (x : Level) (rest : List Level) :
    countLH (x :: (List.replicate k x ++ rest)) = countLH (x :: rest) := by
  induction k with
  | zero => rfl
  | succ k ih =>
      rw [List.replicate_succ, List.cons_append, countLH_cons_cons]
      have hx : (if x = Level.LOW ∧ x = Level.HIGH then 1 else 0) = 0 := by
        cases x <;> decide
      rw [hx, Nat.zero_add, ih]

lemma countLH_low_highs (n : Nat) :
    countLH (Level.LOW :: List.replicate (n + 1) Level.HIGH) = 1 := by
  rw [List.replicate_succ, countLH_cons_cons]
  have h2 : countLH (Level.HIGH :: List.replicate n Level.HIGH) =
      countLH (Level.HIGH :: ([] : List Level)) := by
    have h := countLH_cons_replicate n Level.HIGH []
    rwa [List.append_nil] at h
  rw [h2]
  decide

lemma countLH_pulse (a b c : Nat) :
    countLH (Level.LOW :: (List.replicate (a + 1) Level.HIGH ++
      (List.replicate (b + 1) Level.LOW ++ List.replicate (c + 1) Level.HIGH))) = 2 := by
  rw [List.replicate_succ, List.cons_append, countLH_cons_cons, countLH_cons_replicate,
    List.replicate_succ, List.cons_append, countLH_cons_cons, countLH_cons_replicate,
    countLH_low_highs]
  decide

/-! Discriminating frame lines from event lines: a frame line always contains
the delimiter, the event lines never do. -/

lemma hasDelim_frame (ins : CycleInput) :
    hasDelim (sendSliderValues (updateSliderValues ins)) = true := by
  show (sendSliderValues (updateSliderValues ins)).data.any (fun c => c == '|') = true
  apply List.any_eq_true.mpr
  refine ⟨'|', ?_, by decide⟩
  simp only [sendSliderValues, serialPrintln, updateSliderValues]
  rw [builtString_cons_cons, String.data_append, String.data_append, String.data_append]
  have hd : ("|" : String).data = ['|'] := rfl
  rw [hd]
  simp

lemma frame_ne_event2 (ins : CycleInput) :
    sendSliderValues (updateSliderValues ins) ≠ switch2EventLine := by
  intro h
  have hf := hasDelim_frame ins
  rw [h] at hf
  exact absurd hf (by decide)

lemma frame_ne_event3 (ins : CycleInput) :
    sendSliderValues (updateSliderValues ins) ≠ switch3EventLine := by
  intro h
  have hf := hasDelim_frame ins
  rw [h] at hf
  exact absurd hf (by decide)

/-! Structural description of one loop iteration and of whole runs. -/

lemma loopCycle_snd (st : FirmwareState) (ins : CycleInput) :
    (loopCycle st ins).2 =
      sendSliderValues (updateSliderValues ins) ::
        ((if (pollSwitch st.prevSwitchState2 ins.sw2).2 then [switch2EventLine] else []) ++
         (if (pollSwitch st.prevSwitchState3 ins.sw3).2 then [switch3EventLine] else [])) := rfl

lemma loopCycle_fst (st : FirmwareState) (ins : CycleInput) :
    (loopCycle st ins).1 =
      ⟨updateSliderValues ins, (pollSwitch st.prevSwitchState2 ins.sw2).1,
        (pollSwitch st.prevSwitchState3 ins.sw3).1⟩ := rfl

lemma loopCycle_head (st : FirmwareState) (ins : CycleInput) :
    ((loopCycle st ins).2).head? = some (sendSliderValues (updateSliderValues ins)) := rfl

lemma runFirmware_cons (st : FirmwareState) (ins : CycleInput) (rest : List CycleInput) :
    runFirmware st (ins :: rest) =
      (loopCycle st ins).2 ++ runFirmware (loopCycle st ins).1 rest := rfl

lemma hasDelim_event2 : hasDelim switch2EventLine = false := by decide

lemma hasDelim_event3 : hasDelim switch3EventLine = false := by decide

lemma count_event2_cycle (st : FirmwareState) (ins : CycleInput) :
    ((loopCycle st ins).2).count switch2EventLine =
      (if (pollSwitch st.prevSwitchState2 ins.sw2).2 then 1 else 0) := by
  have hb : (sendSliderValues (updateSliderValues ins) == switch2EventLine) = false :=
    beq_eq_false_iff_ne.mpr (frame_ne_event2 ins)
  rw [loopCycle_snd, List.count_cons, List.count_append]
  simp only [hb]
  cases hp2 : (pollSwitch st.prevSwitchState2 ins.sw2).2 <;>
    cases hp3 : (pollSwitch st.prevSwitchState3 ins.sw3).2 <;> decide

lemma count_event3_cycle (st : FirmwareState) (ins : CycleInput) :
    ((loopCycle st ins).2).count switch3EventLine =
      (if (pollSwitch st.prevSwitchState3 ins.sw3).2 then 1 else 0) := by
  have hb : (sendSliderValues (updateSliderValues ins) == switch3EventLine) = false :=
    beq_eq_false_iff_ne.mpr (frame_ne_event3 ins)
  rw [loopCycle_snd, List.count_cons, List.count_append]
  simp only [hb]
  cases hp2 : (pollSwitch st.prevSwitchState2 ins.sw2).2 <;>
    cases hp3 : (pollSwitch st.prevSwitchState3 ins.sw3).2 <;> decide

lemma count_event2_runFirmware (st : FirmwareState) (inss : List CycleInput) :
    (runFirmware st inss).count switch2EventLine =
      runDebouncer st.prevSwitchState2 (inss.map CycleInput.sw2) := by
  induction inss generalizing st with
  | nil => rfl
  | cons ins rest ih =>
      rw [runFirmware_cons, List.count_append, count_event2_cycle, ih]
      have hstep : ((loopCycle st ins).1).prevSwitchState2 =
          (pollSwitch st.prevSwitchState2 ins.sw2).1 := rfl
      rw [hstep]
      rfl

lemma count_event3_runFirmware (st : FirmwareState) (inss : List CycleInput) :
    (runFirmware st inss).count switch3EventLine =
      runDebouncer st.prevSwitchState3 (inss.map CycleInput.sw3) := by
  induction inss generalizing st with
  | nil => rfl
  | cons ins rest ih =>
      rw [runFirmware_cons, List.count_append, count_event3_cycle, ih]
      have hstep : ((loopCycle st ins).1).prevSwitchState3 =
          (pollSwitch st.prevSwitchState3 ins.sw3).1 := rfl
      rw [hstep]
      rfl

lemma countP_hasDelim_cycle (st : FirmwareState) (ins : CycleInput) :
    ((loopCycle st ins).2).countP (fun l => hasDelim l) = 1 := by
  rw [loopCycle_snd]
  cases hp2 : (pollSwitch st.prevSwitchState2 ins.sw2).2 <;>
    cases hp3 : (pollSwitch st.prevSwitchState3 ins.sw3).2 <;>
    simp [List.countP_cons, List.countP_append, hasDelim_frame ins,
      hasDelim_event2, hasDelim_event3]

lemma countP_hasDelim_runFirmware (st : FirmwareState) (inss : List CycleInput) :
    (runFirmware st inss).countP (fun l => hasDelim l) = inss.length := by
  induction inss generalizing st with
  | nil => rfl
  | cons ins rest ih =>
      rw [runFirmware_cons, List.countP_append, countP_hasDelim_cycle, ih]
      simp [Nat.add_comm]

/-- Claim C1, counterexample: run the firmware from its actual startup state
(`prevSwitchState2 = prevSwitchState3 = LOW`, lines 22-23) on the claimed
scenario — both switch inputs read HIGH (pulled-up, unpressed), then switch 2
reads LOW and then HIGH again, each reading one loop cycle apart, hence spaced
beyond the 50 ms blanking delay.  The output contains two `WORKS 2` lines and
one `WORKS 1` line, not exactly one and zero as the claim states: the first
cycle emits both event lines spuriously because the stored states start LOW
while the pulled-up inputs read HIGH. -/
theorem end_to_end_startup_counterexample :
    (firmwareOutput [⟨0, 0, 0, 0, 0, Level.HIGH, Level.HIGH⟩,
        ⟨0, 0, 0, 0, 0, Level.LOW, Level.HIGH⟩,
        ⟨0, 0, 0, 0, 0, Level.HIGH, Level.HIGH⟩]).count switch2EventLine = 2 ∧
    (firmwareOutput [⟨0, 0, 0, 0, 0, Level.HIGH, Level.HIGH⟩,
        ⟨0, 0, 0, 0, 0, Level.LOW, Level.HIGH⟩,
        ⟨0, 0, 0, 0, 0, Level.HIGH, Level.HIGH⟩]).count switch3EventLine = 1 ∧
    ¬ ((firmwareOutput [⟨0, 0, 0, 0, 0, Level.HIGH, Level.HIGH⟩,
          ⟨0, 0, 0, 0, 0, Level.LOW, Level.HIGH⟩,
          ⟨0, 0, 0, 0, 0, Level.HIGH, Level.HIGH⟩]).count switch2EventLine = 1 ∧
        (firmwareOutput [⟨0, 0, 0, 0, 0, Level.HIGH, Level.HIGH⟩,
          ⟨0, 0, 0, 0, 0, Level.LOW, Level.HIGH⟩,
          ⟨0, 0, 0, 0, 0, Level.HIGH, Level.HIGH⟩]).count switch3EventLine = 0) := by
  decide

/-- Claim C1 (amended): in the end-to-end scenario in which both switch inputs
start at HIGH and one switch (slot 2) transitions to LOW and then back to HIGH
with each level observed on its own cycle (so the transitions are farther
apart than the blanking interval), the firmware emits exactly TWO event lines
for the transitioning switch — one spurious on the first cycle, because the
stored state is initialized LOW while the pulled-up input reads HIGH, plus one
for the true rising edge — and exactly ONE event line for the other switch
(its spurious first-cycle one), while frame lines continue to be emitted
unconditionally, exactly one per cycle. -/
theorem end_to_end_pulse_amended (a b c : Nat) (inss : List CycleInput)
    (ha : 1 ≤ a) (hb : 1 ≤ b) (hc : 1 ≤ c)
    (h2 : inss.map CycleInput.sw2 =
      List.replicate a Level.HIGH ++
        (List.replicate b Level.LOW ++ List.replicate c Level.HIGH))
    (h3 : ∀ i ∈ inss, i.sw3 = Level.HIGH) :
    (firmwareOutput inss).count switch2EventLine = 2 ∧
    (firmwareOutput inss).count switch3EventLine = 1 ∧
    (firmwareOutput inss).countP (fun l => hasDelim l) = inss.length := by
  obtain ⟨a, rfl⟩ : ∃ a2, a = a2 + 1 := ⟨a - 1, by omega⟩
  obtain ⟨b, rfl⟩ : ∃ b2, b = b2 + 1 := ⟨b - 1, by omega⟩
  obtain ⟨c, rfl⟩ : ∃ c2, c = c2 + 1 := ⟨c - 1, by omega⟩
  refine ⟨?_, ?_, countP_hasDelim_runFirmware initialState inss⟩
  · show (runFirmware initialState inss).count switch2EventLine = 2
    rw [count_event2_runFirmware, runDebouncer_eq_countLH]
    have hlow : initialState.prevSwitchState2 = Level.LOW := rfl
    rw [hlow, h2]
    exact countLH_pulse a b c
  · show (runFirmware initialState inss).count switch3EventLine = 1
    rw [count_event3_runFirmware, runDebouncer_eq_countLH]
    have hlow : initialState.prevSwitchState3 = Level.LOW := rfl
    have hmap : inss.map CycleInput.sw3 = List.replicate inss.length Level.HIGH := by
      refine List.eq_replicate_iff.mpr ⟨by simp, ?_⟩
      intro x hx
      obtain ⟨i, hi, rfl⟩ := List.mem_map.mp hx
      exact h3 i hi
    obtain ⟨m, hm⟩ : ∃ m, inss.length = m + 1 := by
      have hlen := congrArg List.length h2
      simp at hlen
      exact ⟨a + b + c + 2, by omega⟩
    rw [hlow, hmap, hm]
    exact countLH_low_highs m

/-- Claim C1 (amended), witness at the three-cycle scenario with one HIGH
cycle, one LOW cycle and one final HIGH cycle on switch 2. -/
theorem end_to_end_pulse_amended_witness :
    ([⟨0, 0, 0, 0, 0, Level.HIGH, Level.HIGH⟩,
        ⟨0, 0, 0, 0, 0, Level.LOW, Level.HIGH⟩,
        ⟨0, 0, 0, 0, 0, Level.HIGH, Level.HIGH⟩] : List CycleInput).map CycleInput.sw2 =
      List.replicate 1 Level.HIGH ++
        (List.replicate 1 Level.LOW ++ List.replicate 1 Level.HIGH) ∧
    ((firmwareOutput [⟨0, 0, 0, 0, 0, Level.HIGH, Level.HIGH⟩,
        ⟨0, 0, 0, 0, 0, Level.LOW, Level.HIGH⟩,
        ⟨0, 0, 0, 0, 0, Level.HIGH, Level.HIGH⟩]).count switch2EventLine = 2 ∧
      (firmwareOutput [⟨0, 0, 0, 0, 0, Level.HIGH, Level.HIGH⟩,
        ⟨0, 0, 0, 0, 0, Level.LOW, Level.HIGH⟩,
        ⟨0, 0, 0, 0, 0, Level.HIGH, Level.HIGH⟩]).count switch3EventLine = 1 ∧
      (firmwareOutput [⟨0, 0, 0, 0, 0, Level.HIGH, Level.HIGH⟩,
        ⟨0, 0, 0, 0, 0, Level.LOW, Level.HIGH⟩,
        ⟨0, 0, 0, 0, 0, Level.HIGH, Level.HIGH⟩]).countP (fun l => hasDelim l) =
        ([⟨0, 0, 0, 0, 0, Level.HIGH, Level.HIGH⟩,
          ⟨0, 0, 0, 0, 0, Level.LOW, Level.HIGH⟩,
          ⟨0, 0, 0, 0, 0, Level.HIGH, Level.HIGH⟩] : List CycleInput).length) :=
  ⟨by decide,
    end_to_end_pulse_amended 1 1 1
      [⟨0, 0, 0, 0, 0, Level.HIGH, Level.HIGH⟩,
        ⟨0, 0, 0, 0, 0, Level.LOW, Level.HIGH⟩,
        ⟨0, 0, 0, 0, 0, Level.HIGH, Level.HIGH⟩]
      (by decide) (by decide) (by decide) (by decide) (by decide)⟩

/-- Claim C2: on each poll of a switch debouncer an Event fires if and only if
the raw level read differs from the stored stable state and the new level is
HIGH; consequently a debouncer fed a sequence containing only HIGH→LOW
transitions (no LOW→HIGH adjacency anywhere in the stored-state-extended
sequence) emits zero Events, regardless of how many transitions occur. -/
theorem debouncer_event_rule (s raw : Level) (ls : List Level)
    (h : countLH (s :: ls) = 0) :
    ((pollSwitch s raw).2 = true ↔ (raw ≠ s ∧ raw = Level.HIGH)) ∧
    runDebouncer s ls = 0 := by
  constructor
  · cases s <;> cases raw <;> decide
  · rw [runDebouncer_eq_countLH, h]

/-- Claim C2, witness: a stable-HIGH debouncer fed two LOW readings (one
HIGH→LOW transition) emits zero Events, and a poll reading HIGH while stable
HIGH does not fire. -/
theorem debouncer_event_rule_witness :
    countLH (Level.HIGH :: [Level.LOW, Level.LOW]) = 0 ∧
    (((pollSwitch Level.HIGH Level.HIGH).2 = true ↔
        (Level.HIGH ≠ Level.HIGH ∧ Level.HIGH = Level.HIGH)) ∧
      runDebouncer Level.HIGH [Level.LOW, Level.LOW] = 0) :=
  ⟨by decide, debouncer_event_rule Level.HIGH Level.HIGH [Level.LOW, Level.LOW] (by decide)⟩

/-- Claim C3: a switch debouncer emits at most one Event per LOW→HIGH
transition of the observed level sequence (extended with the stored initial
state) — rapid flips inside one blanking window are never polled, so they add
no observations — and the sequence LOW, HIGH, LOW, HIGH with each level
observed on its own poll (spacing beyond the blanking window) yields exactly
two Events. -/
theorem debouncer_one_event_per_rising_edge :
    (∀ (s : Level) (ls : List Level), runDebouncer s ls ≤ countLH (s :: ls)) ∧
    runDebouncer Level.LOW [Level.LOW, Level.HIGH, Level.LOW, Level.HIGH] = 2 := by
  constructor
  · intro s ls
    exact (runDebouncer_eq_countLH s ls).le
  · decide

/-- Claim C4: for every `N ≥ 1`, encoding `N` channel values produces exactly
`N - 1` delimiter characters, with no delimiter as first or last character of
the encoded body; encoding `N = 0` values produces an empty line. -/
theorem encode_delimiter_shape (vs : List Int) (h : 1 ≤ vs.length) :
    (builtString vs).data.count '|' = vs.length - 1 ∧
    (builtString vs).data.head? ≠ some '|' ∧
    (builtString vs).data.getLast? ≠ some '|' ∧
    sendSliderValues [] = "\n" := by
  cases vs with
  | nil => simp at h
  | cons v vs =>
      refine ⟨?_, builtString_head v vs, builtString_getLast v vs, rfl⟩
      rw [builtString_count]
      simp

/-- Claim C4, witness at the two-element channel list `[512, 7]`. -/
theorem encode_delimiter_shape_witness :
    1 ≤ ([512, 7] : List Int).length ∧
    ((builtString [512, 7]).data.count '|' = ([512, 7] : List Int).length - 1 ∧
      (builtString [512, 7]).data.head? ≠ some '|' ∧
      (builtString [512, 7]).data.getLast? ≠ some '|' ∧
      sendSliderValues [] = "\n") :=
  ⟨by decide, encode_delimiter_shape [512, 7] (by decide)⟩

/-- Claim C5: encoding the channel magnitudes `[512, 0, 1023, 256, 999]`
produces exactly the line `"512|0|1023|256|999\n"`; in particular magnitude 0
encodes as `"0"` and 1023 encodes as `"1023"`, with no truncation or wrap. -/
theorem encode_round_trip :
    sendSliderValues [512, 0, 1023, 256, 999] = "512|0|1023|256|999\n" ∧
    builtString [0] = "0" ∧
    builtString [1023] = "1023" := by
  decide

/-- Claim C6: each switch slot's rising edge emits one fixed literal line, the
two lines are textually distinct, and the identifiers are swapped relative to
the slot numbering: slot 2 emits the line carrying identifier "2" while slot 3
emits the line carrying identifier "1". -/
theorem switch_event_lines_swapped :
    switch2EventLine = "WORKS 2\n" ∧
    switch3EventLine = "WORKS 1\n" ∧
    switch2EventLine ≠ switch3EventLine ∧
    (loopCycle ⟨[0, 0, 0, 0, 0], Level.LOW, Level.HIGH⟩
        ⟨0, 0, 0, 0, 0, Level.HIGH, Level.HIGH⟩).2 =
      [sendSliderValues [0, 0, 0, 0, 0], switch2EventLine] ∧
    (loopCycle ⟨[0, 0, 0, 0, 0], Level.HIGH, Level.LOW⟩
        ⟨0, 0, 0, 0, 0, Level.HIGH, Level.HIGH⟩).2 =
      [sendSliderValues [0, 0, 0, 0, 0], switch3EventLine] := by
  decide

/-- Claim C7: every loop cycle first samples all five channels (in fixed index
order) and then transmits, unconditionally and regardless of the switch state,
exactly one frame line — the encoding of this cycle's five fresh samples — as
the first output of the cycle; every other line of the cycle is one of the two
fixed event lines, and the sample list always has length `NUM_SLIDERS = 5`. -/
theorem frame_every_cycle (st : FirmwareState) (ins : CycleInput) :
    ((loopCycle st ins).2).head? = some (sendSliderValues (updateSliderValues ins)) ∧
    ((loopCycle st ins).2).countP (fun l => hasDelim l) = 1 ∧
    ((loopCycle st ins).2).tail.all
      (fun l => l == switch2EventLine || l == switch3EventLine) = true ∧
    updateSliderValues ins = [ins.a0, ins.a1, ins.a2, ins.a3, ins.a4] ∧
    (updateSliderValues ins).length = NUM_SLIDERS := by
  refine ⟨loopCycle_head st ins, countP_hasDelim_cycle st ins, ?_, rfl, rfl⟩
  rw [loopCycle_snd]
  cases hp2 : (pollSwitch st.prevSwitchState2 ins.sw2).2 <;>
    cases hp3 : (pollSwitch st.prevSwitchState3 ins.sw3).2 <;> simp

/-- Claim C8: the frame encoder is deterministic and pure — encoding equal
channel arrays yields byte-identical lines, the emitted frame line does not
depend on any other state (stored switch states or previous samples), and the
cycle leaves the channel array exactly as the sampler wrote it (the encoder
mutates nothing). -/
theorem frame_encoder_deterministic (st st2 : FirmwareState) (ins ins2 : CycleInput)
    (h : updateSliderValues ins = updateSliderValues ins2) :
    sendSliderValues (updateSliderValues ins) = sendSliderValues (updateSliderValues ins2) ∧
    ((loopCycle st ins).2).head? = ((loopCycle st2 ins2).2).head? ∧
    (loopCycle st ins).1.analogSliderValues = updateSliderValues ins := by
  refine ⟨by rw [h], ?_, rfl⟩
  rw [loopCycle_head, loopCycle_head, h]

/-- Claim C8, witness: same analog readings but different switch readings and
different previous state still give byte-identical frame output. -/
theorem frame_encoder_deterministic_witness :
    updateSliderValues ⟨3, 1, 4, 1, 5, Level.LOW, Level.LOW⟩ =
      updateSliderValues ⟨3, 1, 4, 1, 5, Level.HIGH, Level.HIGH⟩ ∧
    (sendSliderValues (updateSliderValues ⟨3, 1, 4, 1, 5, Level.LOW, Level.LOW⟩) =
      sendSliderValues (updateSliderValues ⟨3, 1, 4, 1, 5, Level.HIGH, Level.HIGH⟩) ∧
      ((loopCycle initialState ⟨3, 1, 4, 1, 5, Level.LOW, Level.LOW⟩).2).head? =
        ((loopCycle ⟨[9, 9, 9, 9, 9], Level.HIGH, Level.HIGH⟩
          ⟨3, 1, 4, 1, 5, Level.HIGH, Level.HIGH⟩).2).head? ∧
      (loopCycle initialState ⟨3, 1, 4, 1, 5, Level.LOW, Level.LOW⟩).1.analogSliderValues =
        updateSliderValues ⟨3, 1, 4, 1, 5, Level.LOW, Level.LOW⟩) :=
  ⟨rfl, frame_encoder_deterministic initialState ⟨[9, 9, 9, 9, 9], Level.HIGH, Level.HIGH⟩
    ⟨3, 1, 4, 1, 5, Level.LOW, Level.LOW⟩ ⟨3, 1, 4, 1, 5, Level.HIGH, Level.HIGH⟩ rfl⟩

/-- Claim C9 (implicit behavior): the stored stable switch states are
initialized LOW while the switch pins are configured with pull-ups (idle reads
HIGH), so on the first loop iteration in which both switches read HIGH —
without any physical transition having occurred — the firmware emits both
event lines, right after the frame line. -/
theorem startup_spurious_events (ins : CycleInput)
    (h2 : ins.sw2 = Level.HIGH) (h3 : ins.sw3 = Level.HIGH) :
    firmwareOutput [ins] =
      [sendSliderValues (updateSliderValues ins), switch2EventLine, switch3EventLine] ∧
    initialState.prevSwitchState2 = Level.LOW ∧
    initialState.prevSwitchState3 = Level.LOW := by
  refine ⟨?_, rfl, rfl⟩
  show (loopCycle initialState ins).2 ++ [] = _
  rw [List.append_nil, loopCycle_snd, h2, h3]
  rfl

/-- Claim C9, witness at a concrete first-cycle input with both switches
reading HIGH. -/
theorem startup_spurious_events_witness :
    (⟨3, 1, 4, 1, 5, Level.HIGH, Level.HIGH⟩ : CycleInput).sw2 = Level.HIGH ∧
    (firmwareOutput [⟨3, 1, 4, 1, 5, Level.HIGH, Level.HIGH⟩] =
      [sendSliderValues (updateSliderValues ⟨3, 1, 4, 1, 5, Level.HIGH, Level.HIGH⟩),
        switch2EventLine, switch3EventLine] ∧
      initialState.prevSwitchState2 = Level.LOW ∧
      initialState.prevSwitchState3 = Level.LOW) :=
  ⟨rfl, startup_spurious_events ⟨3, 1, 4, 1, 5, Level.HIGH, Level.HIGH⟩ rfl rfl⟩

/-- Claim C10: the serial output stream is a deterministic function of the
sequences of values returned by the analog and digital pin reads: two runs
supplied with identical read sequences produce identical output streams (in
the embedding, every input the firmware consumes is part of `CycleInput`, so
nothing else can influence the output), and each cycle's contribution is
determined stepwise by the reads and the accumulated switch state. -/
theorem serial_output_deterministic (inss inss2 : List CycleInput) (h : inss = inss2) :
    firmwareOutput inss = firmwareOutput inss2 ∧
    ∀ (st : FirmwareState) (ins : CycleInput) (rest : List CycleInput),
      runFirmware st (ins :: rest) =
        (loopCycle st ins).2 ++ runFirmware (loopCycle st ins).1 rest :=
  ⟨by rw [h], fun st ins rest => rfl⟩

/-- Claim C10, witness: two runs on the same concrete read sequence produce
the same output. -/
theorem serial_output_deterministic_witness :
    ([⟨0, 0, 0, 0, 0, Level.HIGH, Level.LOW⟩] : List CycleInput) =
      [⟨0, 0, 0, 0, 0, Level.HIGH, Level.LOW⟩] ∧
    firmwareOutput [⟨0, 0, 0, 0, 0, Level.HIGH, Level.LOW⟩] =
      firmwareOutput [⟨0, 0, 0, 0, 0, Level.HIGH, Level.LOW⟩] :=
  ⟨rfl, (serial_output_deterministic
    [⟨0, 0, 0, 0, 0, Level.HIGH, Level.LOW⟩]
    [⟨0, 0, 0, 0, 0, Level.HIGH, Level.LOW⟩] rfl).1⟩

end RVCI
